import Mathlib

/-!
Verification development for the mark-sheet extraction pipeline of
`bestest.py` (repository No-poppler).

The pipeline's text-to-record core is embedded shallowly:

* characters are Lean `Char`, Python strings are `List Char` (ASCII scope);
* the composite extraction pattern
  `(0801[A-Z\d]*[A-Z]?)\s+([A-Za-z\s]+?)(?:\s*\(.*?\))?\s+(\d+(\.\d+)?|A|None|Absent|abs|D)`
  compiled with `re.IGNORECASE` is hand-compiled into a backtracking matcher
  with Python's leftmost, depth-first, greedy/lazy exploration order, and
  `re.findall` into a left-to-right non-overlapping scan;
* Python `float(...)` applied to a decimal numeral literal is modelled by
  correctly-rounded (round-to-nearest, ties-to-even) conversion of the exact
  decimal value to a 53-bit-significand binary rational, which is what IEEE-754
  binary64 string conversion computes for numbers in the normal range
  (gradual underflow and overflow to infinity, which cannot change any
  comparison against the threshold 22, are not modelled);
* the pandas steps of `process_data` (dropna over the enrollment and name
  columns, the two threshold `.loc` updates, the Detained column, the Status
  fillna, and the four boolean-mask partitions) are modelled row by row with
  `Option` for missing cells (None/NaN), preserving the order of operations
  of the source.
-/

namespace Bestest

/-- Python strings are modelled as lists of characters. -/
abbrev Str := List Char

/-- Coerce a Lean string literal to the `Str` model. -/
def str (s : String) : Str := s.toList

/-- ASCII decimal digit, the model of the regex class `\d`. -/
def isDig (c : Char) : Bool := 48 ≤ c.toNat && c.toNat ≤ 57

/-- ASCII letter, the model of the regex class `[A-Za-z]` (and of `[A-Z]`
under `re.IGNORECASE`). -/
def isLet (c : Char) : Bool :=
  (65 ≤ c.toNat && c.toNat ≤ 90) || (97 ≤ c.toNat && c.toNat ≤ 122)

/-- ASCII alphanumeric, the model of `[A-Z\d]` under `re.IGNORECASE`. -/
def isAl (c : Char) : Bool := isLet c || isDig c

/-- ASCII whitespace, the model of the regex class `\s` and of the
character set stripped by Python `str.strip()`. -/
def isWS (c : Char) : Bool :=
  c.toNat == 32 || c.toNat == 9 || c.toNat == 10 ||
  c.toNat == 13 || c.toNat == 11 || c.toNat == 12

/-- Character of the name field class `[A-Za-z\s]`. -/
def isName (c : Char) : Bool := isLet c || isWS c

/-- ASCII lowercasing of one character, the model of Python `str.lower()`
applied to ASCII text. -/
def lowerChar (c : Char) : Char :=
  if 65 ≤ c.toNat && c.toNat ≤ 90 then Char.ofNat (c.toNat + 32) else c

/-- Model of Python `str.lower()`. -/
def pyLower (cs : Str) : Str := cs.map lowerChar

/-- Model of Python `str.strip()`: drop whitespace from both ends. -/
def pyStrip (cs : Str) : Str :=
  ((cs.dropWhile isWS).reverse.dropWhile isWS).reverse

/-- Model of the Python guard `s.replace(".", "").isdigit()` used in
`extract_data_from_text` (line 94): after removing every dot the string must
be non-empty and all digits. -/
def pyIsDigitGuard (cs : Str) : Bool :=
  let r := cs.filter fun c => !(c == '.')
  !r.isEmpty && r.all isDig

/-- Shape of the numeral alternative `\d+(\.\d+)?` of the mark field: a
non-empty digit run, optionally followed by a dot and a non-empty digit run,
with nothing left over. -/
def numeralShape (cs : Str) : Bool :=
  let ds := cs.takeWhile isDig
  let r := cs.dropWhile isDig
  !ds.isEmpty &&
    (r.isEmpty ||
      (decide (r.head? = some '.') && !(r.drop 1).isEmpty && (r.drop 1).all isDig))

/-- Numeric value of a digit character. -/
def digitVal (c : Char) : ℕ := c.toNat - 48

/-- Natural number denoted by a digit string (most significant first). -/
def digitsToNat (cs : Str) : ℕ := cs.foldl (fun n c => 10 * n + digitVal c) 0

/-- Exact rational value of a token of shape `\d+(\.\d+)?`, built with
`mkRat` so that it evaluates inside the kernel. -/
def decValue (cs : Str) : ℚ :=
  let ds := cs.takeWhile isDig
  match cs.dropWhile isDig with
  | '.' :: fs => mkRat (digitsToNat (ds ++ fs)) (10 ^ fs.length)
  | _ => mkRat (digitsToNat ds) 1

/-- Floor of the base-two logarithm, by structural recursion on fuel so that
it evaluates inside the kernel. -/
def log2fuel : ℕ → ℕ → ℕ
  | 0, _ => 0
  | f + 1, n => if n < 2 then 0 else 1 + log2fuel f (n / 2)

/-- Floor of the base-two logarithm (0 at 0). -/
def natLog2 (n : ℕ) : ℕ := log2fuel n n

/-- Numerator and denominator of `(a / b) * 2 ^ e` without rational
arithmetic. -/
def scaled (a b : ℕ) (e : ℤ) : ℕ × ℕ :=
  if 0 ≤ e then (a * 2 ^ e.toNat, b) else (a, b * 2 ^ (-e).toNat)

/-- Round a non-negative rational to the nearest (ties to even) rational of
the form `m * 2 ^ (-e)` with `m < 2 ^ 53`: the value Python `float(...)`
returns for a decimal literal in the IEEE-754 binary64 normal range. -/
def f64round (q : ℚ) : ℚ :=
  if q ≤ 0 then 0 else
  let a := q.num.toNat
  let b := q.den
  let e1 : ℤ := 52 + (natLog2 b : ℤ) - (natLog2 a : ℤ)
  let p1 := scaled a b e1
  let e : ℤ := if p1.1 < 2 ^ 52 * p1.2 then e1 + 1 else e1
  let p := scaled a b e
  let m0 := p.1 / p.2
  let r := p.1 % p.2
  let m : ℕ :=
    if 2 * r < p.2 then m0
    else if p.2 < 2 * r then m0 + 1
    else if m0 % 2 == 0 then m0 else m0 + 1
  if 0 ≤ e then mkRat (m : ℤ) (2 ^ e.toNat) else mkRat ((m : ℤ) * 2 ^ (-e).toNat) 1

/-- Model of Python `float(tok)` for the tokens reaching the numeric branch
of `extract_data_from_text` (line 95): defined (`some`) exactly on tokens of
shape `\d+(\.\d+)?`, which are the only ones the extraction pattern can
capture there; on other dot-digit strings (for example `"1.2.3"`) Python
`float` raises, which the surrounding pipeline can never trigger, and the
model returns `none`. -/
def pyFloat (cs : Str) : Option ℚ :=
  if numeralShape cs then some (f64round (decValue cs)) else none

/-- The three capture groups the code reads from one match of the extraction
pattern: enrollment token, name field, mark-or-status field. -/
structure RawTriple where
  g1 : Str
  g2 : Str
  g3 : Str
deriving DecidableEq

/-- Case-insensitive literal match: consume `lit` from the front of `cs`,
returning the consumed text (with its original case) and the rest. -/
def stripLitCI : Str → Str → Option (Str × Str)
  | [], cs => some ([], cs)
  | _ :: _, [] => none
  | l :: ls, c :: cs =>
    if lowerChar c = lowerChar l then
      match stripLitCI ls cs with
      | some (m, r) => some (c :: m, r)
      | none => none
    else none

/-- Match the numeral alternative `\d+(\.\d+)?` at the front of `cs`
(both quantifiers greedy), returning the captured text and the rest: a
non-empty digit run, then, only if a dot with at least one digit behind it
follows, the dot and the digit run after it. -/
def matchNumeral (cs : Str) : Option (Str × Str) :=
  let ds := cs.takeWhile isDig
  let r := cs.dropWhile isDig
  if ds.isEmpty then none
  else if r.head? = some '.' then
    let r2 := r.drop 1
    let fs := r2.takeWhile isDig
    if fs.isEmpty then some (ds, r)
    else some (ds ++ '.' :: fs, r2.dropWhile isDig)
  else some (ds, r)

/-- Match the mark-or-status group `(\d+(\.\d+)?|A|None|Absent|abs|D)` at the
front of `cs`: alternatives are tried in the pattern's order, literals
case-insensitively. -/
def matchG3 (cs : Str) : Option (Str × Str) :=
  match matchNumeral cs with
  | some pr => some pr
  | none =>
    [str "A", str "None", str "Absent", str "abs", str "D"].findSome?
      fun lit => stripLitCI lit cs

/-- Backtracking states of the lazy `.*?\)` tail of the parenthesized aside:
the rest of the input after each `)` the lazy `.*?` can reach, in the order
the engine tries them (shortest expansion first). `.` does not match `\n`,
so no `)` at or beyond a newline is reachable, and the scan stops there. -/
def closeCands : Str → List Str
  | [] => []
  | ')' :: r => r :: closeCands r
  | '\n' :: _ => []
  | _ :: r => closeCands r

/-- Backtracking states of the inner alternative of `(?:\s*\(.*?\))?` at the
front of `cs`: the greedy `\s*` must be followed by `(`, and since no
whitespace character is `(`, the only viable split consumes the whole
whitespace run; after the `(`, one state per reachable closing `)`. -/
def parenCands (cs : Str) : List Str :=
  match cs.dropWhile isWS with
  | '(' :: r => closeCands r
  | _ => []

/-- Numbers `n, n-1, ..., 1`: exploration order of a greedy `+` over an
`n`-character run. -/
def downFrom (n : ℕ) : List ℕ := (List.range n).reverse.map (· + 1)

/-- Numbers `1, 2, ..., n`: exploration order of a lazy `+?` over an
`n`-character run. -/
def upTo (n : ℕ) : List ℕ := (List.range n).map (· + 1)

/-- Splits explored for the optional `[A-Z]?` (greedy: consume one letter if
possible, else consume nothing), as pairs of consumed text and rest. -/
def letterOpts : Str → List (Str × Str)
  | [] => [([], [])]
  | c :: r => if isLet c then [([c], r), ([], c :: r)] else [([], c :: r)]

/-- Match `\s+` (greedy) followed by the mark group, with the captures `g1`
and `g2` already fixed; returns the full triple and the unconsumed rest. -/
def matchTail3 (g1 g2 rem : Str) : Option (RawTriple × Str) :=
  let run := rem.takeWhile isWS
  let after := rem.dropWhile isWS
  (downFrom run.length).findSome? fun w =>
    match matchG3 (run.drop w ++ after) with
    | some pr => some (⟨g1, g2, pr.1⟩, pr.2)
    | none => none

/-- Match `(?:\s*\(.*?\))?\s+(...)` after the name: the optional aside is
tried first (greedy `?`), its lazy `.*?` expanding to each reachable closing
`)` in turn while the rest of the pattern fails; when every expansion fails
(or no aside starts here) the empty alternative is taken, exactly as the
backtracking engine does. -/
def matchTail2 (g1 g2 rem : Str) : Option (RawTriple × Str) :=
  match (parenCands rem).findSome? fun rem5 => matchTail3 g1 g2 rem5 with
  | some res => some res
  | none => matchTail3 g1 g2 rem

/-- Match the lazy name field `([A-Za-z\s]+?)` and everything after it:
candidate name lengths are tried shortest first. -/
def matchName (g1 rem : Str) : Option (RawTriple × Str) :=
  let run := rem.takeWhile isName
  let after := rem.dropWhile isName
  (upTo run.length).findSome? fun j =>
    matchTail2 g1 (run.take j) (run.drop j ++ after)

/-- Match the greedy `\s+` after the enrollment token and everything after
it: longest whitespace consumption is tried first. -/
def matchWs1 (g1 rem : Str) : Option (RawTriple × Str) :=
  let run := rem.takeWhile isWS
  let after := rem.dropWhile isWS
  (downFrom run.length).findSome? fun w =>
    matchName g1 (run.drop w ++ after)

/-- Match `[A-Z\d]*[A-Z]?` (both greedy) after the literal `0801` and
everything after it; the capture `g1` is `0801` plus the consumed run. -/
def matchG1 (cs1 : Str) : Option (RawTriple × Str) :=
  let run := cs1.takeWhile isAl
  let after := cs1.dropWhile isAl
  ((List.range (run.length + 1)).reverse).findSome? fun i =>
    (letterOpts (run.drop i ++ after)).findSome? fun lo =>
      matchWs1 (('0' :: '8' :: '0' :: '1' :: run.take i) ++ lo.1) lo.2

/-- Try to match the whole extraction pattern at the current position: it is
anchored by the literal prefix `0801`. -/
def matchAt : Str → Option (RawTriple × Str)
  | '0' :: '8' :: '0' :: '1' :: cs1 => matchG1 cs1
  | _ => none

/-- Model of `re.findall`: scan left to right, at each position try a match;
on success continue after the consumed text, on failure advance one
character. Every match consumes at least the four anchor characters, so fuel
`length + 1` never runs out. -/
def scanAll : ℕ → Str → List RawTriple
  | 0, _ => []
  | _ + 1, [] => []
  | fuel + 1, c :: cs =>
    match matchAt (c :: cs) with
    | some (t, rest) => t :: scanAll fuel rest
    | none => scanAll fuel cs

/-- One tuple of the list built by `extract_data_from_text`
(lines 101): enrollment number, name, optional marks, status string.
Cells are `Option` because `process_data` later views them as pandas cells
where a Python `None` is a missing value; the extractor itself always fills
`enr`, `name` and `status` with `some`. -/
structure DataRow where
  enr : Option Str
  name : Option Str
  marks : Option ℚ
  status : Option Str
deriving DecidableEq

/-- The status-decision chain of `extract_data_from_text` (lines 87-99),
applied to the stripped mark-or-status token: returns the `(marks, status)`
pair. -/
def classifyTok (tok : Str) : Option ℚ × Str :=
  if pyLower tok ∈ [str "a", str "absent", str "none", str "abs"] then
    (none, str "Absent")
  else if pyLower tok = str "d" then
    (none, str "Detained")
  else if pyIsDigitGuard tok then
    (pyFloat tok, str "Present")
  else
    (none, str "Unknown")

/-- Model of `extract_data_from_text` (lines 76-103): run the pattern over
the text with `findall`, strip the three captured fields, classify the
mark-or-status token, and collect the records in match order. -/
def extract_data_from_text (text : Str) : List DataRow :=
  (scanAll (text.length + 1) text).map fun t =>
    let enrollment_no := pyStrip t.g1
    let name := pyStrip t.g2
    let marks_or_status := pyStrip t.g3
    let c := classifyTok marks_or_status
    ⟨some enrollment_no, some name, c.1, some c.2⟩

/-- A row of the processed DataFrame: after `process_data`'s fillna the
status cell is always present, and the Detained column has been added. -/
structure ProcRow where
  enr : Option Str
  name : Option Str
  marks : Option ℚ
  status : Str
  detained : Bool
deriving DecidableEq

/-- The per-row effect of `process_data`'s column operations (lines 113-120),
in source order: set status to Pass where marks are present and at least 22,
then to Fail where marks are present and below 22, then compute the Detained
flag from the current status, then fill a missing status with Absent. -/
def processRow (r : DataRow) : ProcRow :=
  let st1 : Option Str :=
    match r.marks with
    | some q => if 22 ≤ q then some (str "Pass") else r.status
    | none => r.status
  let st2 : Option Str :=
    match r.marks with
    | some q => if q < 22 then some (str "Fail") else st1
    | none => st1
  let det : Bool := decide (st2 = some (str "Detained"))
  ⟨r.enr, r.name, r.marks, st2.getD (str "Absent"), det⟩

/-- The four partitions returned by `process_data` (lines 123-128). -/
structure Split where
  passed : List ProcRow
  failed : List ProcRow
  absent : List ProcRow
  detained : List ProcRow
deriving DecidableEq

/-- The partition step of `process_data` (lines 123-126): four boolean-mask
selections on the status column, each preserving row order. -/
def splitByStatus (rows : List ProcRow) : Split :=
  ⟨rows.filter fun r => decide (r.status = str "Pass"),
   rows.filter fun r => decide (r.status = str "Fail"),
   rows.filter fun r => decide (r.status = str "Absent"),
   rows.filter fun r => decide (r.status = str "Detained")⟩

/-- Model of `process_data` (lines 106-128): drop rows whose enrollment or
name cell is missing (pandas `dropna` drops `None`/`NaN` cells, not empty
strings), apply the column updates row by row, and partition by status. -/
def process_data (data : List DataRow) : Split :=
  splitByStatus (((data.filter fun r => r.enr.isSome && r.name.isSome).map processRow))

/-- Model of `generate_excel` (lines 131-140): one named sheet per non-empty
partition, in the source's order; empty partitions produce no sheet, and no
error value exists in this function. -/
def generate_excel (passed failed absent detained : List ProcRow) :
    List (Str × List ProcRow) :=
  (if passed.isEmpty then [] else [(str "Passed Students", passed)]) ++
  (if failed.isEmpty then [] else [(str "Failed Students", failed)]) ++
  (if absent.isEmpty then [] else [(str "Absent Students", absent)]) ++
  (if detained.isEmpty then [] else [(str "Detained Students", detained)])

/-- Outcome of the post-OCR part of `main` (lines 164-179): either the
single error return for empty extracted text, or an invocation of the
exporter with the sheets it writes. -/
inductive RunOutcome
  | noTextExtracted
  | exported (sheets : List (Str × List ProcRow))
deriving DecidableEq

/-- Model of `main` from the point where the assembled OCR text is in hand
(lines 167-179): the only error branch in the source is the empty-text
check; otherwise the run always proceeds through extraction, processing and
the exporter. -/
def runFromText (text : Str) : RunOutcome :=
  if pyStrip text = [] then .noTextExtracted
  else
    let s := process_data (extract_data_from_text text)
    .exported (generate_excel s.passed s.failed s.absent s.detained)

/-- Classification of one raw token followed by the per-row processing step:
the two classification layers of the pipeline composed on a single record
with the given enrollment and name fields. -/
def classifyProcess (e n tok : Str) : ProcRow :=
  let c := classifyTok tok
  processRow ⟨some e, some n, c.1, some c.2⟩

/-- The assembled text of the spec's end-to-end scenario A. -/
def scenarioA : Str :=
  str "0801CS021 John Smith 25\n0801CS022 Jane Doe A\n0801CS023 Ravi Kumar D\n0801CS024 Meera Rao 18"

/-- The lowercased forms of the five literal alternatives of the mark
group. -/
def statusLits : List Str := [str "a", str "none", str "absent", str "abs", str "d"]

/-!
Helper lemmas about the character classes and the list combinators used by
the matcher.
-/

theorem findSome?_inv {α β : Type} {f : α → Option β} {b : β} :
    ∀ {l : List α}, l.findSome? f = some b → ∃ a, a ∈ l ∧ f a = some b := by
  intro l
  induction l with
  | nil => intro h; simp [List.findSome?_nil] at h
  | cons x xs ih =>
    intro h
    rw [List.findSome?_cons] at h
    cases hfx : f x with
    | some y =>
      rw [hfx] at h
      exact ⟨x, List.mem_cons_self x xs, by rw [hfx]; exact h⟩
    | none =>
      rw [hfx] at h
      obtain ⟨a, ha, hfa⟩ := ih h
      exact ⟨a, List.mem_cons_of_mem x ha, hfa⟩

theorem lowerChar_eq_self {c : Char} (h : c.toNat < 65 ∨ 90 < c.toNat) : lowerChar c = c := by
  have hc : ¬((65 ≤ c.toNat && c.toNat ≤ 90) = true) := by
    simp only [Bool.and_eq_true, decide_eq_true_eq]
    omega
  simp [lowerChar, hc]

theorem lowerChar_of_isDig {c : Char} (h : isDig c = true) : lowerChar c = c := by
  simp only [isDig, Bool.and_eq_true, decide_eq_true_eq] at h
  exact lowerChar_eq_self (Or.inl (by omega))

theorem lowerChar_of_isWS {c : Char} (h : isWS c = true) : lowerChar c = c := by
  simp only [isWS, Bool.or_eq_true, beq_iff_eq] at h
  exact lowerChar_eq_self (by omega)

theorem not_isWS_of_isDig {c : Char} (h : isDig c = true) : isWS c = false := by
  simp only [isDig, Bool.and_eq_true, decide_eq_true_eq] at h
  rw [Bool.eq_false_iff]
  intro hw
  simp only [isWS, Bool.or_eq_true, beq_iff_eq] at hw
  omega

theorem dropWhile_eq_self_of_all {p : Char → Bool} {l : Str}
    (h : ∀ c ∈ l, p c = false) : l.dropWhile p = l := by
  cases l with
  | nil => rfl
  | cons c t =>
    rw [List.dropWhile_cons, h c (List.mem_cons_self c t)]
    simp

theorem pyStrip_eq_self {cs : Str} (h : ∀ c ∈ cs, isWS c = false) : pyStrip cs = cs := by
  unfold pyStrip
  rw [dropWhile_eq_self_of_all h,
    dropWhile_eq_self_of_all fun c hc => h c (List.mem_reverse.mp hc)]
  exact List.reverse_reverse cs

theorem takeWhile_eq_self_of_all {p : Char → Bool} :
    ∀ {l : Str}, l.all p = true → l.takeWhile p = l := by
  intro l
  induction l with
  | nil => intro _; rfl
  | cons c t ih =>
    intro h
    simp only [List.all_cons, Bool.and_eq_true] at h
    rw [List.takeWhile_cons, h.1]
    simp [ih h.2]

theorem dropWhile_eq_nil_of_all {p : Char → Bool} :
    ∀ {l : Str}, l.all p = true → l.dropWhile p = [] := by
  intro l
  induction l with
  | nil => intro _; rfl
  | cons c t ih =>
    intro h
    simp only [List.all_cons, Bool.and_eq_true] at h
    rw [List.dropWhile_cons, h.1]
    simp [ih h.2]

theorem takeWhile_append_cons {p : Char → Bool} {x : Char} {t : Str} :
    ∀ {ds : Str}, ds.all p = true → p x = false →
      ((ds ++ x :: t).takeWhile p) = ds := by
  intro ds
  induction ds with
  | nil => intro _ hx; simp [List.takeWhile_cons, hx]
  | cons c cs ih =>
    intro h hx
    simp only [List.all_cons, Bool.and_eq_true] at h
    simp [List.takeWhile_cons, h.1, ih h.2 hx]

theorem dropWhile_append_cons {p : Char → Bool} {x : Char} {t : Str} :
    ∀ {ds : Str}, ds.all p = true → p x = false →
      ((ds ++ x :: t).dropWhile p) = x :: t := by
  intro ds
  induction ds with
  | nil => intro _ hx; simp [List.dropWhile_cons, hx]
  | cons c cs ih =>
    intro h hx
    simp only [List.all_cons, Bool.and_eq_true] at h
    simp [List.dropWhile_cons, h.1, ih h.2 hx]

theorem filter_eq_self_of_all {p : Char → Bool} :
    ∀ {l : Str}, (∀ c ∈ l, p c = true) → l.filter p = l := by
  intro l
  induction l with
  | nil => intro _; rfl
  | cons c t ih =>
    intro h
    rw [List.filter_cons, if_pos (h c (List.mem_cons_self c t))]
    rw [ih fun d hd => h d (List.mem_cons_of_mem c hd)]

/-!
Shape facts about numeral tokens and about the strings the mark group of the
pattern can capture.
-/

theorem numeralShape_elim {cs : Str} (h : numeralShape cs = true) :
    cs.takeWhile isDig ≠ [] ∧
      (cs.dropWhile isDig = [] ∨
        ∃ fs, cs.dropWhile isDig = '.' :: fs ∧ fs ≠ [] ∧ fs.all isDig = true) := by
  unfold numeralShape at h
  simp only [Bool.and_eq_true, Bool.or_eq_true, Bool.not_eq_true', decide_eq_true_eq] at h
  obtain ⟨h1, h2⟩ := h
  refine ⟨by simpa [List.isEmpty_iff] using h1, ?_⟩
  rcases h2 with h2 | ⟨⟨hhead, hne⟩, hall⟩
  · exact Or.inl (by simpa [List.isEmpty_iff] using h2)
  · rcases hdrop : cs.dropWhile isDig with _ | ⟨c, fs⟩
    · rw [hdrop] at hhead; cases hhead
    · rw [hdrop] at hhead hne hall
      simp only [List.head?_cons, Option.some.injEq] at hhead
      subst hhead
      refine Or.inr ⟨fs, rfl, ?_, ?_⟩
      · simpa [List.isEmpty_iff] using hne
      · simpa using hall

theorem numeralShape_digits {ds : Str} (hne : ds ≠ []) (hall : ds.all isDig = true) :
    numeralShape ds = true := by
  unfold numeralShape
  rw [takeWhile_eq_self_of_all hall, dropWhile_eq_nil_of_all hall]
  simp [hne]

theorem numeralShape_dot {ds fs : Str} (hne : ds ≠ []) (hall : ds.all isDig = true)
    (hfne : fs ≠ []) (hfall : fs.all isDig = true) :
    numeralShape (ds ++ '.' :: fs) = true := by
  unfold numeralShape
  rw [takeWhile_append_cons hall (by decide), dropWhile_append_cons hall (by decide)]
  simp [hne, hfne, hfall]

theorem numeralShape_head {cs : Str} (h : numeralShape cs = true) :
    ∃ c t, cs = c :: t ∧ isDig c = true := by
  obtain ⟨h1, _⟩ := numeralShape_elim h
  cases hcs : cs with
  | nil => rw [hcs] at h1; simp at h1
  | cons c t =>
    rcases hd : isDig c with _ | _
    · rw [hcs, List.takeWhile_cons, hd] at h1
      simp at h1
    · exact ⟨c, t, rfl, hd⟩

theorem numeralShape_no_ws {cs : Str} (h : numeralShape cs = true) :
    ∀ c ∈ cs, isWS c = false := by
  intro c hc
  obtain ⟨_, hrest⟩ := numeralShape_elim h
  have hmem : c ∈ cs.takeWhile isDig ++ cs.dropWhile isDig := by
    rw [List.takeWhile_append_dropWhile]; exact hc
  rcases List.mem_append.mp hmem with h1 | h2
  · exact not_isWS_of_isDig (List.mem_takeWhile_imp h1)
  · rcases hrest with he | ⟨fs, hfs, _, hall⟩
    · rw [he] at h2; cases h2
    · rw [hfs] at h2
      rcases List.mem_cons.mp h2 with rfl | h3
      · decide
      · exact not_isWS_of_isDig (List.all_eq_true.mp hall c h3)

theorem numeralShape_not_absent {cs : Str} (h : numeralShape cs = true) :
    pyLower cs ∉ [str "a", str "absent", str "none", str "abs"] := by
  intro hmem
  obtain ⟨c, t, rfl, hd⟩ := numeralShape_head h
  have hlow : pyLower (c :: t) = c :: pyLower t := by
    simp [pyLower, lowerChar_of_isDig hd]
  simp only [List.mem_cons, List.not_mem_nil, or_false] at hmem
  rcases hmem with h1 | h1 | h1 | h1 <;>
    rw [hlow] at h1 <;>
    · have hc : c = List.headI (α := Char) _ := congrArg List.headI h1
      rw [hc] at hd
      exact absurd hd (by decide)

theorem numeralShape_not_d {cs : Str} (h : numeralShape cs = true) :
    pyLower cs ≠ str "d" := by
  intro h1
  obtain ⟨c, t, rfl, hd⟩ := numeralShape_head h
  have hlow : pyLower (c :: t) = c :: pyLower t := by
    simp [pyLower, lowerChar_of_isDig hd]
  rw [hlow] at h1
  have hc : c = List.headI (α := Char) _ := congrArg List.headI h1
  rw [hc] at hd
  exact absurd hd (by decide)

theorem bne_dot_of_isDig {c : Char} (h : isDig c = true) : (!(c == '.')) = true := by
  simp only [Bool.not_eq_true', beq_eq_false_iff_ne, ne_eq]
  intro hc
  rw [hc] at h
  exact absurd h (by decide)

theorem numeralShape_guard {cs : Str} (h : numeralShape cs = true) :
    pyIsDigitGuard cs = true := by
  obtain ⟨hds, hrest⟩ := numeralShape_elim h
  have hsplit : cs.takeWhile isDig ++ cs.dropWhile isDig = cs :=
    List.takeWhile_append_dropWhile isDig cs
  have hall : (cs.takeWhile isDig).all isDig = true :=
    List.all_eq_true.mpr fun c hc => List.mem_takeWhile_imp hc
  unfold pyIsDigitGuard
  rw [← hsplit, List.filter_append]
  rw [filter_eq_self_of_all fun c hc => bne_dot_of_isDig (List.all_eq_true.mp hall c hc)]
  rcases hrest with he | ⟨fs, hfs, hfne, hfall⟩
  · rw [he]
    simp only [List.filter_nil, List.append_nil, Bool.and_eq_true, Bool.not_eq_true']
    refine ⟨by simpa [List.isEmpty_iff] using hds, hall⟩
  · rw [hfs, List.filter_cons]
    rw [if_neg (by decide)]
    rw [filter_eq_self_of_all fun c hc => bne_dot_of_isDig (List.all_eq_true.mp hfall c hc)]
    simp only [Bool.and_eq_true, Bool.not_eq_true']
    constructor
    · have hne2 : cs.takeWhile isDig ++ fs ≠ [] := by
        intro hcon
        exact hds (List.append_eq_nil.mp hcon).1
      simpa [List.isEmpty_iff] using hne2
    · rw [List.all_append]
      exact by simp [hall, hfall]

theorem matchNumeral_shape {cs : Str} {pr : Str × Str}
    (h : matchNumeral cs = some pr) : numeralShape pr.1 = true := by
  unfold matchNumeral at h
  by_cases hds : (cs.takeWhile isDig).isEmpty = true
  · rw [if_pos hds] at h; cases h
  · rw [if_neg hds] at h
    have hne : cs.takeWhile isDig ≠ [] := by
      simpa [List.isEmpty_iff] using hds
    have hall : (cs.takeWhile isDig).all isDig = true :=
      List.all_eq_true.mpr fun c hc => List.mem_takeWhile_imp hc
    by_cases hdot : (cs.dropWhile isDig).head? = some '.'
    · rw [if_pos hdot] at h
      by_cases hfs : (((cs.dropWhile isDig).drop 1).takeWhile isDig).isEmpty = true
      · rw [if_pos hfs] at h
        cases h
        exact numeralShape_digits hne hall
      · rw [if_neg hfs] at h
        cases h
        exact numeralShape_dot hne hall (by simpa [List.isEmpty_iff] using hfs)
          (List.all_eq_true.mpr fun d hd => List.mem_takeWhile_imp hd)
    · rw [if_neg hdot] at h
      cases h
      exact numeralShape_digits hne hall

theorem stripLitCI_lower :
    ∀ {lit cs m r : Str}, stripLitCI lit cs = some (m, r) → pyLower m = pyLower lit := by
  intro lit
  induction lit with
  | nil =>
    intro cs m r h
    unfold stripLitCI at h
    cases h
    rfl
  | cons l ls ih =>
    intro cs m r h
    cases cs with
    | nil => unfold stripLitCI at h; cases h
    | cons c cs' =>
      unfold stripLitCI at h
      by_cases hl : lowerChar c = lowerChar l
      · rw [if_pos hl] at h
        cases hrec : stripLitCI ls cs' with
        | none => rw [hrec] at h; cases h
        | some p =>
          obtain ⟨m2, r2⟩ := p
          rw [hrec] at h
          cases h
          have hih := ih hrec
          simp only [pyLower, List.map_cons] at hih ⊢
          rw [hl, hih]
      · rw [if_neg hl] at h
        cases h

/-- What the mark group can capture: a numeral-shaped string or a string
whose lowercasing is one of the five status literals. -/
def g3Good (g3 : Str) : Prop :=
  numeralShape g3 = true ∨ pyLower g3 ∈ statusLits

theorem matchG3_shape {cs : Str} {pr : Str × Str}
    (h : matchG3 cs = some pr) : g3Good pr.1 := by
  unfold matchG3 at h
  cases hn : matchNumeral cs with
  | some pr2 =>
    rw [hn] at h
    cases h
    exact Or.inl (matchNumeral_shape hn)
  | none =>
    rw [hn] at h
    obtain ⟨lit, hlit, hstrip⟩ := findSome?_inv h
    obtain ⟨m, r⟩ := pr
    have hlow := stripLitCI_lower hstrip
    simp only [List.mem_cons, List.not_mem_nil, or_false] at hlit
    rcases hlit with h1 | h1 | h1 | h1 | h1 <;>
      subst h1 <;>
      exact Or.inr (by rw [hlow]; decide)

theorem matchTail3_g3 {g1 g2 rem : Str} {res : RawTriple × Str}
    (h : matchTail3 g1 g2 rem = some res) : g3Good res.1.g3 := by
  unfold matchTail3 at h
  obtain ⟨w, _, hres⟩ := findSome?_inv h
  cases hg3 : matchG3 ((rem.takeWhile isWS).drop w ++ rem.dropWhile isWS) with
  | none => rw [hg3] at hres; cases hres
  | some pr =>
    rw [hg3] at hres
    cases hres
    exact matchG3_shape hg3

theorem matchTail2_g3 {g1 g2 rem : Str} {res : RawTriple × Str}
    (h : matchTail2 g1 g2 rem = some res) : g3Good res.1.g3 := by
  unfold matchTail2 at h
  cases hf : (parenCands rem).findSome? fun rem5 => matchTail3 g1 g2 rem5 with
  | some res2 =>
    rw [hf] at h
    cases h
    obtain ⟨rem5, _, h5⟩ := findSome?_inv hf
    exact matchTail3_g3 h5
  | none =>
    rw [hf] at h
    exact matchTail3_g3 h

theorem matchName_g3 {g1 rem : Str} {res : RawTriple × Str}
    (h : matchName g1 rem = some res) : g3Good res.1.g3 := by
  unfold matchName at h
  obtain ⟨j, _, hres⟩ := findSome?_inv h
  exact matchTail2_g3 hres

theorem matchWs1_g3 {g1 rem : Str} {res : RawTriple × Str}
    (h : matchWs1 g1 rem = some res) : g3Good res.1.g3 := by
  unfold matchWs1 at h
  obtain ⟨w, _, hres⟩ := findSome?_inv h
  exact matchName_g3 hres

theorem matchG1_g3 {cs1 : Str} {res : RawTriple × Str}
    (h : matchG1 cs1 = some res) : g3Good res.1.g3 := by
  unfold matchG1 at h
  obtain ⟨i, _, hres⟩ := findSome?_inv h
  obtain ⟨lo, _, hres2⟩ := findSome?_inv hres
  exact matchWs1_g3 hres2

theorem matchAt_g3 {cs : Str} {res : RawTriple × Str}
    (h : matchAt cs = some res) : g3Good res.1.g3 := by
  unfold matchAt at h
  split at h
  · exact matchG1_g3 h
  · cases h

theorem scanAll_g3 :
    ∀ {fuel : ℕ} {cs : Str} {t : RawTriple}, t ∈ scanAll fuel cs → g3Good t.g3 := by
  intro fuel
  induction fuel with
  | zero => intro cs t h; simp [scanAll] at h
  | succ f ih =>
    intro cs t h
    cases cs with
    | nil => simp [scanAll] at h
    | cons c cs' =>
      rw [scanAll] at h
      cases hm : matchAt (c :: cs') with
      | none =>
        rw [hm] at h
        exact ih h
      | some pr =>
        rw [hm] at h
        rcases List.mem_cons.mp h with rfl | h2
        · exact matchAt_g3 hm
        · exact ih h2

/-!
Facts about the classification chain of `extract_data_from_text` and the
form of the rows it produces.
-/

theorem classifyTok_numeral {tok : Str} (h : numeralShape tok = true) :
    classifyTok tok = (some (f64round (decValue tok)), str "Present") := by
  unfold classifyTok
  rw [if_neg (numeralShape_not_absent h), if_neg (numeralShape_not_d h),
    if_pos (numeralShape_guard h)]
  unfold pyFloat
  rw [if_pos h]

theorem classifyTok_lower_absent {tok : Str}
    (h : pyLower tok ∈ [str "a", str "absent", str "none", str "abs"]) :
    classifyTok tok = (none, str "Absent") := by
  unfold classifyTok
  rw [if_pos h]

theorem classifyTok_lower_d {tok : Str} (h : pyLower tok = str "d") :
    classifyTok tok = (none, str "Detained") := by
  unfold classifyTok
  rw [if_neg (by rw [h]; decide), if_pos h]

theorem classifyTok_cases (tok : Str) :
    classifyTok tok = (none, str "Absent") ∨
    classifyTok tok = (none, str "Detained") ∨
    classifyTok tok = (pyFloat tok, str "Present") ∨
    classifyTok tok = (none, str "Unknown") := by
  unfold classifyTok
  by_cases h1 : pyLower tok ∈ [str "a", str "absent", str "none", str "abs"]
  · rw [if_pos h1]; exact Or.inl rfl
  · rw [if_neg h1]
    by_cases h2 : pyLower tok = str "d"
    · rw [if_pos h2]; exact Or.inr (Or.inl rfl)
    · rw [if_neg h2]
      by_cases h3 : pyIsDigitGuard tok = true
      · rw [if_pos h3]; exact Or.inr (Or.inr (Or.inl rfl))
      · rw [if_neg h3]; exact Or.inr (Or.inr (Or.inr rfl))

theorem no_ws_of_lower_letters {cs L : Str} (hall : L.all isLet = true)
    (h : pyLower cs = L) : ∀ c ∈ cs, isWS c = false := by
  intro c hc
  rw [Bool.eq_false_iff]
  intro hws
  have hmem : lowerChar c ∈ L := h ▸ List.mem_map_of_mem lowerChar hc
  have hlet : isLet (lowerChar c) = true := List.all_eq_true.mp hall _ hmem
  rw [lowerChar_of_isWS hws] at hlet
  simp only [isLet, Bool.or_eq_true, Bool.and_eq_true, decide_eq_true_eq] at hlet
  simp only [isWS, Bool.or_eq_true, beq_iff_eq] at hws
  omega

theorem classify_strip_of_good {g3 : Str} (h : g3Good g3) :
    (numeralShape g3 = true ∧ pyStrip g3 = g3) ∨
      (pyLower g3 ∈ statusLits ∧ pyStrip g3 = g3) := by
  rcases h with h | h
  · exact Or.inl ⟨h, pyStrip_eq_self (numeralShape_no_ws h)⟩
  · refine Or.inr ⟨h, ?_⟩
    have hmem := h
    simp only [statusLits, List.mem_cons, List.not_mem_nil, or_false] at hmem
    rcases hmem with h1 | h1 | h1 | h1 | h1 <;>
      exact pyStrip_eq_self (no_ws_of_lower_letters (by decide) h1)

theorem classify_of_good {g3 : Str} (h : g3Good g3) :
    (classifyTok (pyStrip g3)).2 = str "Absent" ∨
    (classifyTok (pyStrip g3)).2 = str "Detained" ∨
    (classifyTok (pyStrip g3)).2 = str "Present" := by
  rcases classify_strip_of_good h with ⟨hn, hs⟩ | ⟨hmem, hs⟩
  · rw [hs, classifyTok_numeral hn]
    exact Or.inr (Or.inr rfl)
  · rw [hs]
    simp only [statusLits, List.mem_cons, List.not_mem_nil, or_false] at hmem
    rcases hmem with h1 | h1 | h1 | h1 | h1
    · rw [classifyTok_lower_absent (by rw [h1]; decide)]
      exact Or.inl rfl
    · rw [classifyTok_lower_absent (by rw [h1]; decide)]
      exact Or.inl rfl
    · rw [classifyTok_lower_absent (by rw [h1]; decide)]
      exact Or.inl rfl
    · rw [classifyTok_lower_absent (by rw [h1]; decide)]
      exact Or.inl rfl
    · rw [classifyTok_lower_d h1]
      exact Or.inr (Or.inl rfl)

theorem extract_row_form {text : Str} {d : DataRow}
    (h : d ∈ extract_data_from_text text) :
    ∃ t : RawTriple, t ∈ scanAll (text.length + 1) text ∧
      d = ⟨some (pyStrip t.g1), some (pyStrip t.g2),
           (classifyTok (pyStrip t.g3)).1, some (classifyTok (pyStrip t.g3)).2⟩ := by
  unfold extract_data_from_text at h
  obtain ⟨t, ht, hd⟩ := List.mem_map.mp h
  exact ⟨t, ht, hd.symm⟩

theorem classifyProcess_eq (e n tok : Str) :
    classifyProcess e n tok =
      processRow ⟨some e, some n, (classifyTok tok).1, some (classifyTok tok).2⟩ := rfl

theorem processRow_marks_none {E N : Option Str} {s : Str} :
    processRow ⟨E, N, none, some s⟩ =
      ⟨E, N, none, s, decide (some s = some (str "Detained"))⟩ := rfl

theorem processRow_ge {E N : Option Str} {st : Option Str} {q : ℚ} (hq : 22 ≤ q) :
    processRow ⟨E, N, some q, st⟩ = ⟨E, N, some q, str "Pass", false⟩ := by
  simp [processRow, hq, not_lt.mpr hq]
  decide

theorem processRow_lt {E N : Option Str} {st : Option Str} {q : ℚ} (hq : q < 22) :
    processRow ⟨E, N, some q, st⟩ = ⟨E, N, some q, str "Fail", false⟩ := by
  simp [processRow, hq, not_le.mpr hq]
  decide

/-!
The claim theorems, their witnesses and their counterexamples.
-/

/-- C1: the claim states that on the assembled scenario-A text the pipeline
yields four records partitioned as Passed = [John Smith, 25],
Absent = [Jane Doe], Detained = [Ravi Kumar], Failed = [Meera Rao, 18].
The code actually matches the letter D of the name Doe as the mark-or-status
token (the literal alternatives of the pattern are not anchored to token
boundaries), so Jane is extracted with truncated name "Jane" and token "D"
and lands in the Detained partition, leaving the Absent partition empty.
This theorem evaluates the code at the claimed input and exhibits the actual
four partitions. -/
theorem C1_scenarioA_actual :
    process_data (extract_data_from_text scenarioA) =
      ⟨[⟨some (str "0801CS021"), some (str "John Smith"), some 25, str "Pass", false⟩],
       [⟨some (str "0801CS024"), some (str "Meera Rao"), some 18, str "Fail", false⟩],
       [],
       [⟨some (str "0801CS022"), some (str "Jane"), none, str "Detained", true⟩,
        ⟨some (str "0801CS023"), some (str "Ravi Kumar"), none, str "Detained", true⟩]⟩ := by
  decide

/-- C2: for every raw token of valid non-negative decimal numeral shape, the
classification chain stores exactly the value Python `float` parses from the
token (the correctly rounded binary64 value, with no further rounding), and
the final status after `process_data`'s threshold rules is Pass exactly when
that parsed value is at least 22, and Fail otherwise. -/
theorem C2_numeral_token (tok : Str) (h : numeralShape tok = true) (e n : Str) :
    ∃ q : ℚ, pyFloat tok = some q ∧
      (classifyProcess e n tok).marks = some q ∧
      ((classifyProcess e n tok).status = str "Pass" ↔ 22 ≤ q) ∧
      ((classifyProcess e n tok).status = str "Fail" ↔ q < 22) := by
  have hc := classifyTok_numeral h
  have hq : pyFloat tok = some (f64round (decValue tok)) := by
    unfold pyFloat
    rw [if_pos h]
  have k1 : (classifyTok tok).1 = some (f64round (decValue tok)) := by rw [hc]
  have k2 : (classifyTok tok).2 = str "Present" := by rw [hc]
  rw [classifyProcess_eq, k1, k2]
  refine ⟨f64round (decValue tok), hq, ?_⟩
  by_cases hge : 22 ≤ f64round (decValue tok)
  · rw [processRow_ge hge]
    refine ⟨rfl, ?_, ?_⟩
    · exact ⟨fun _ => hge, fun _ => rfl⟩
    · constructor
      · intro hcon
        exact absurd ((by decide : str "Pass" ≠ str "Fail") hcon) id
      · intro hcon
        exact absurd hcon (not_lt.mpr hge)
  · have hlt : f64round (decValue tok) < 22 := not_le.mp hge
    rw [processRow_lt hlt]
    refine ⟨rfl, ?_, ?_⟩
    · constructor
      · intro hcon
        exact absurd ((by decide : str "Fail" ≠ str "Pass") hcon) id
      · intro hcon
        exact absurd hcon hge
    · exact ⟨fun _ => hlt, fun _ => rfl⟩

/-- Witness for C2 at the concrete numeral token 25: the parsed mark is
exactly 25 and the final status is Pass. -/
theorem C2_numeral_token_witness :
    numeralShape (str "25") = true ∧
      ∃ q : ℚ, pyFloat (str "25") = some q ∧
        (classifyProcess [] [] (str "25")).marks = some q ∧
        ((classifyProcess [] [] (str "25")).status = str "Pass" ↔ 22 ≤ q) ∧
        ((classifyProcess [] [] (str "25")).status = str "Fail" ↔ q < 22) :=
  ⟨by decide, C2_numeral_token (str "25") (by decide) [] []⟩

/-- C6: every raw token whose lowercasing is one of a, absent, abs, none is
classified as Absent with no mark, whatever the letter case of the token. -/
theorem C6_absent_tokens (tok : Str)
    (h : pyLower tok ∈ [str "a", str "absent", str "abs", str "none"]) :
    classifyTok tok = (none, str "Absent") := by
  apply classifyTok_lower_absent
  simp only [List.mem_cons, List.not_mem_nil, or_false] at h
  rcases h with h | h | h | h <;> rw [h] <;> decide

/-- Witness for C6 at the concrete token ABS. -/
theorem C6_absent_tokens_witness :
    pyLower (str "ABS") ∈ [str "a", str "absent", str "abs", str "none"] ∧
      classifyTok (str "ABS") = (none, str "Absent") :=
  ⟨by decide, C6_absent_tokens (str "ABS") (by decide)⟩

/-- C7: the token D (either case) is classified as Detained with no mark,
and after the processing step the record carries status Detained, detained
flag true and no mark. -/
theorem C7_detained_token (tok e n : Str) (h : tok = str "D" ∨ tok = str "d") :
    classifyTok tok = (none, str "Detained") ∧
      (classifyProcess e n tok).status = str "Detained" ∧
      (classifyProcess e n tok).detained = true ∧
      (classifyProcess e n tok).marks = none := by
  rcases h with h | h <;> subst h <;> exact ⟨rfl, rfl, rfl, rfl⟩

/-- Witness for C7 at the uppercase token D. -/
theorem C7_detained_token_witness :
    (str "D" = str "D" ∨ str "D" = str "d") ∧
      (classifyTok (str "D") = (none, str "Detained") ∧
        (classifyProcess [] [] (str "D")).status = str "Detained" ∧
        (classifyProcess [] [] (str "D")).detained = true ∧
        (classifyProcess [] [] (str "D")).marks = none) :=
  ⟨Or.inl rfl, C7_detained_token (str "D") [] [] (Or.inl rfl)⟩

theorem processRow_invariant_general {E N : Option Str} {m : Option ℚ} {s : Str}
    (hs : s = str "Absent" ∨ s = str "Detained" ∨ s = str "Present" ∨ s = str "Unknown") :
    (((processRow ⟨E, N, m, some s⟩).marks.isSome = true) ↔
      ((processRow ⟨E, N, m, some s⟩).status = str "Pass" ∨
       (processRow ⟨E, N, m, some s⟩).status = str "Fail")) ∧
    (((processRow ⟨E, N, m, some s⟩).detained = true) ↔
      (processRow ⟨E, N, m, some s⟩).status = str "Detained") := by
  cases m with
  | none =>
    rw [processRow_marks_none]
    rcases hs with rfl | rfl | rfl | rfl <;> dsimp only <;> exact ⟨by decide, by decide⟩
  | some q =>
    by_cases hge : 22 ≤ q
    · rw [processRow_ge hge]
      dsimp only
      constructor
      · simp
      · have h1 : ¬ str "Pass" = str "Detained" := by decide
        simp [h1]
    · rw [processRow_lt (not_le.mp hge)]
      dsimp only
      constructor
      · simp
      · have h1 : ¬ str "Fail" = str "Detained" := by decide
        simp [h1]

/-- C3: every classified record produced by the pipeline (extraction, drop
of rows with missing cells, column updates) carries a mark exactly when its
final status is Pass or Fail, and its detained flag is set exactly when its
final status is Detained. -/
theorem C3_record_invariant (text : Str) (r : ProcRow)
    (h : r ∈ ((extract_data_from_text text).filter fun d =>
        d.enr.isSome && d.name.isSome).map processRow) :
    ((r.marks.isSome = true) ↔ (r.status = str "Pass" ∨ r.status = str "Fail")) ∧
      ((r.detained = true) ↔ r.status = str "Detained") := by
  obtain ⟨d, hd, hr⟩ := List.mem_map.mp h
  have hd2 : d ∈ extract_data_from_text text := (List.mem_filter.mp hd).1
  obtain ⟨t, _, hform⟩ := extract_row_form hd2
  subst hform
  subst hr
  have hs : (classifyTok (pyStrip t.g3)).2 = str "Absent" ∨
      (classifyTok (pyStrip t.g3)).2 = str "Detained" ∨
      (classifyTok (pyStrip t.g3)).2 = str "Present" ∨
      (classifyTok (pyStrip t.g3)).2 = str "Unknown" := by
    rcases classifyTok_cases (pyStrip t.g3) with hc | hc | hc | hc <;> simp [hc]
  exact processRow_invariant_general hs

/-- Witness for C3 on the concrete boundary text of scenario B: the Alex Roy
record with mark 22 and status Pass satisfies the invariant. -/
theorem C3_record_invariant_witness :
    ((⟨some (str "0801CS025"), some (str "Alex Roy"), some 22, str "Pass", false⟩ : ProcRow) ∈
        ((extract_data_from_text (str "0801CS025 Alex Roy 22")).filter fun d =>
          d.enr.isSome && d.name.isSome).map processRow) ∧
      ((((⟨some (str "0801CS025"), some (str "Alex Roy"), some 22, str "Pass", false⟩ : ProcRow)).marks.isSome = true ↔
        ((⟨some (str "0801CS025"), some (str "Alex Roy"), some 22, str "Pass", false⟩ : ProcRow)).status = str "Pass" ∨
        ((⟨some (str "0801CS025"), some (str "Alex Roy"), some 22, str "Pass", false⟩ : ProcRow)).status = str "Fail") ∧
       (((⟨some (str "0801CS025"), some (str "Alex Roy"), some 22, str "Pass", false⟩ : ProcRow)).detained = true ↔
        ((⟨some (str "0801CS025"), some (str "Alex Roy"), some 22, str "Pass", false⟩ : ProcRow)).status = str "Detained")) :=
  ⟨by decide, C3_record_invariant (str "0801CS025 Alex Roy 22") _ (by decide)⟩

/-- C10: every record the extractor emits has status Absent, Detained or
Present: every string the pattern can capture in the mark group is either a
numeral (so the digit guard holds and the parse succeeds) or one of the
literal status tokens, hence the Unknown fallback branch is unreachable on
extractor output. -/
theorem C10_unknown_unreachable (text : Str) (d : DataRow)
    (h : d ∈ extract_data_from_text text) :
    d.status = some (str "Absent") ∨ d.status = some (str "Detained") ∨
      d.status = some (str "Present") := by
  obtain ⟨t, ht, hform⟩ := extract_row_form h
  subst hform
  rcases classify_of_good (scanAll_g3 ht) with hc | hc | hc <;> simp [hc]

/-- Witness for C10 on a concrete text: the extracted record has status
Present. -/
theorem C10_unknown_unreachable_witness :
    ((⟨some (str "0801CS025"), some (str "Alex Roy"), some 22, some (str "Present")⟩ : DataRow) ∈
        extract_data_from_text (str "0801CS025 Alex Roy 22")) ∧
      ((⟨some (str "0801CS025"), some (str "Alex Roy"), some 22, some (str "Present")⟩ : DataRow).status = some (str "Absent") ∨
       (⟨some (str "0801CS025"), some (str "Alex Roy"), some 22, some (str "Present")⟩ : DataRow).status = some (str "Detained") ∨
       (⟨some (str "0801CS025"), some (str "Alex Roy"), some 22, some (str "Present")⟩ : DataRow).status = some (str "Present")) :=
  ⟨by decide, C10_unknown_unreachable (str "0801CS025 Alex Roy 22") _ (by decide)⟩

/-- C4 counterexample: the claim states that a raw record whose name is
empty after trimming is dropped and never appears in any output partition.
On the text consisting of an enrollment token followed by three spaces and a
mark, the pattern captures a single space as the name, which strips to the
empty string; pandas dropna removes only missing (None/NaN) cells, not empty
strings, so the record is kept and lands in the passed partition. -/
theorem C4_counterexample :
    (process_data (extract_data_from_text (str "0801X   25"))).passed =
      [⟨some (str "0801X"), some [], some 25, str "Pass", false⟩] := by
  decide

/-- C4 amended: only records with a missing (None) enrollment or name cell
are dropped; every record appearing in any of the four partitions stems from
an input row whose enrollment and name cells are present (but possibly empty
strings). -/
theorem C4_amended_only_missing_dropped (data : List DataRow) (r : ProcRow)
    (h : r ∈ (process_data data).passed ∨ r ∈ (process_data data).failed ∨
         r ∈ (process_data data).absent ∨ r ∈ (process_data data).detained) :
    ∃ d, d ∈ data ∧ d.enr.isSome = true ∧ d.name.isSome = true ∧ r = processRow d := by
  have hmem : r ∈ (data.filter fun x => x.enr.isSome && x.name.isSome).map processRow := by
    simp only [process_data, splitByStatus] at h
    rcases h with h | h | h | h <;> exact (List.mem_filter.mp h).1
  obtain ⟨d, hd, hr⟩ := List.mem_map.mp hmem
  obtain ⟨hd1, hd2⟩ := List.mem_filter.mp hd
  simp only [Bool.and_eq_true] at hd2
  exact ⟨d, hd1, hd2.1, hd2.2, hr.symm⟩

/-- Witness for the amended C4 on a one-row input with present cells. -/
theorem C4_amended_witness :
    ((⟨some [], some [], none, str "Absent", false⟩ : ProcRow) ∈
        (process_data [⟨some [], some [], none, some (str "Absent")⟩]).passed ∨
     (⟨some [], some [], none, str "Absent", false⟩ : ProcRow) ∈
        (process_data [⟨some [], some [], none, some (str "Absent")⟩]).failed ∨
     (⟨some [], some [], none, str "Absent", false⟩ : ProcRow) ∈
        (process_data [⟨some [], some [], none, some (str "Absent")⟩]).absent ∨
     (⟨some [], some [], none, str "Absent", false⟩ : ProcRow) ∈
        (process_data [⟨some [], some [], none, some (str "Absent")⟩]).detained) ∧
      (∃ d, d ∈ [(⟨some [], some [], none, some (str "Absent")⟩ : DataRow)] ∧
        d.enr.isSome = true ∧ d.name.isSome = true ∧
        (⟨some [], some [], none, str "Absent", false⟩ : ProcRow) = processRow d) :=
  ⟨Or.inr (Or.inr (Or.inl (by decide))),
   C4_amended_only_missing_dropped [⟨some [], some [], none, some (str "Absent")⟩] _
     (Or.inr (Or.inr (Or.inl (by decide))))⟩

/-- C5: the table splitter is a disjoint, order-preserving cover: each of
the four partitions is a sublist of the input (so input order is kept), a
record whose status is one of Pass, Fail, Absent, Detained belongs to
exactly one partition, and a record with any other status (in particular
Unknown) belongs to none. -/
theorem C5_partition (rows : List ProcRow) (r : ProcRow) (h : r ∈ rows) :
    ((splitByStatus rows).passed.Sublist rows ∧
     (splitByStatus rows).failed.Sublist rows ∧
     (splitByStatus rows).absent.Sublist rows ∧
     (splitByStatus rows).detained.Sublist rows) ∧
    (((if r ∈ (splitByStatus rows).passed then 1 else 0) +
      (if r ∈ (splitByStatus rows).failed then 1 else 0) +
      (if r ∈ (splitByStatus rows).absent then 1 else 0) +
      (if r ∈ (splitByStatus rows).detained then 1 else 0) : ℕ) =
      if r.status = str "Pass" ∨ r.status = str "Fail" ∨
         r.status = str "Absent" ∨ r.status = str "Detained" then 1 else 0) := by
  constructor
  · exact ⟨List.filter_sublist rows, List.filter_sublist rows,
      List.filter_sublist rows, List.filter_sublist rows⟩
  · have hp : (r ∈ (splitByStatus rows).passed) ↔ r.status = str "Pass" := by
      simp [splitByStatus, List.mem_filter, h]
    have hf : (r ∈ (splitByStatus rows).failed) ↔ r.status = str "Fail" := by
      simp [splitByStatus, List.mem_filter, h]
    have ha : (r ∈ (splitByStatus rows).absent) ↔ r.status = str "Absent" := by
      simp [splitByStatus, List.mem_filter, h]
    have hd : (r ∈ (splitByStatus rows).detained) ↔ r.status = str "Detained" := by
      simp [splitByStatus, List.mem_filter, h]
    by_cases h1 : r.status = str "Pass"
    · have n2 : ¬ r.status = str "Fail" := by rw [h1]; decide
      have n3 : ¬ r.status = str "Absent" := by rw [h1]; decide
      have n4 : ¬ r.status = str "Detained" := by rw [h1]; decide
      simp [hp, hf, ha, hd, h1, n2, n3, n4]
      decide
    · by_cases h2 : r.status = str "Fail"
      · have n3 : ¬ r.status = str "Absent" := by rw [h2]; decide
        have n4 : ¬ r.status = str "Detained" := by rw [h2]; decide
        simp [hp, hf, ha, hd, h1, h2, n3, n4]
        decide
      · by_cases h3 : r.status = str "Absent"
        · have n4 : ¬ r.status = str "Detained" := by rw [h3]; decide
          simp [hp, hf, ha, hd, h1, h2, h3, n4]
          decide
        · by_cases h4 : r.status = str "Detained"
          · simp [hp, hf, ha, hd, h1, h2, h3, h4]
            decide
          · simp [hp, hf, ha, hd, h1, h2, h3, h4]

/-- Witness for C5 on a one-record list with status Absent: the record lands
in exactly one partition. -/
theorem C5_partition_witness :
    ((⟨none, none, none, str "Absent", false⟩ : ProcRow) ∈
        [(⟨none, none, none, str "Absent", false⟩ : ProcRow)]) ∧
      (((splitByStatus [(⟨none, none, none, str "Absent", false⟩ : ProcRow)]).passed.Sublist
          [(⟨none, none, none, str "Absent", false⟩ : ProcRow)] ∧
        (splitByStatus [(⟨none, none, none, str "Absent", false⟩ : ProcRow)]).failed.Sublist
          [(⟨none, none, none, str "Absent", false⟩ : ProcRow)] ∧
        (splitByStatus [(⟨none, none, none, str "Absent", false⟩ : ProcRow)]).absent.Sublist
          [(⟨none, none, none, str "Absent", false⟩ : ProcRow)] ∧
        (splitByStatus [(⟨none, none, none, str "Absent", false⟩ : ProcRow)]).detained.Sublist
          [(⟨none, none, none, str "Absent", false⟩ : ProcRow)]) ∧
       (((if (⟨none, none, none, str "Absent", false⟩ : ProcRow) ∈
            (splitByStatus [(⟨none, none, none, str "Absent", false⟩ : ProcRow)]).passed then 1 else 0) +
         (if (⟨none, none, none, str "Absent", false⟩ : ProcRow) ∈
            (splitByStatus [(⟨none, none, none, str "Absent", false⟩ : ProcRow)]).failed then 1 else 0) +
         (if (⟨none, none, none, str "Absent", false⟩ : ProcRow) ∈
            (splitByStatus [(⟨none, none, none, str "Absent", false⟩ : ProcRow)]).absent then 1 else 0) +
         (if (⟨none, none, none, str "Absent", false⟩ : ProcRow) ∈
            (splitByStatus [(⟨none, none, none, str "Absent", false⟩ : ProcRow)]).detained then 1 else 0) : ℕ) =
         if (⟨none, none, none, str "Absent", false⟩ : ProcRow).status = str "Pass" ∨
            (⟨none, none, none, str "Absent", false⟩ : ProcRow).status = str "Fail" ∨
            (⟨none, none, none, str "Absent", false⟩ : ProcRow).status = str "Absent" ∨
            (⟨none, none, none, str "Absent", false⟩ : ProcRow).status = str "Detained" then 1 else 0)) :=
  ⟨by decide, C5_partition [⟨none, none, none, str "Absent", false⟩] _ (by decide)⟩

/-- C8 counterexample: on the non-empty text hello the pattern matches zero
records, yet the run does not terminate in a failure distinct from the
empty-text error: the only error branch in `main` is the empty-text check,
and the run proceeds to invoke the exporter with zero sheets. No
NoMatchingRecords outcome exists in the code. -/
theorem C8_counterexample :
    pyStrip (str "hello") ≠ [] ∧ extract_data_from_text (str "hello") = [] ∧
      runFromText (str "hello") = RunOutcome.exported [] := by
  decide

/-- C8 amended: when the extracted text is non-empty but the pattern matches
zero records, the run does not report any distinct failure: it passes the
empty-text check and invokes the exporter, which writes zero sheets. -/
theorem C8_amended_reaches_export (text : Str)
    (h1 : pyStrip text ≠ []) (h2 : extract_data_from_text text = []) :
    runFromText text = RunOutcome.exported [] := by
  unfold runFromText
  rw [if_neg h1, h2]
  rfl

/-- Witness for the amended C8 at the concrete text hello. -/
theorem C8_amended_witness :
    pyStrip (str "hello") ≠ [] ∧ extract_data_from_text (str "hello") = [] ∧
      runFromText (str "hello") = RunOutcome.exported [] :=
  ⟨by decide, by decide,
    C8_amended_reaches_export (str "hello") (by decide) (by decide)⟩

/-- C9 counterexample: with an empty classified set all four partitions are
empty, and the export step of the repository returns an empty sheet list
rather than failing: no EmptyExportSet error value exists anywhere in the
code, so nothing in the repository turns the empty export into a failure. -/
theorem C9_counterexample :
    process_data [] = ⟨[], [], [], []⟩ ∧ generate_excel [] [] [] [] = [] := by
  decide

/-- C9 amended: the export step writes zero sheets exactly when all four
partitions are empty; it omits every empty table and never raises an
EmptyExportSet failure (any failure on an empty workbook would arise inside
the external spreadsheet library, outside this repository). -/
theorem C9_amended_empty_sheets (p f a d : List ProcRow) :
    generate_excel p f a d = [] ↔ (p = [] ∧ f = [] ∧ a = [] ∧ d = []) := by
  cases p <;> cases f <;> cases a <;> cases d <;> simp [generate_excel]

end Bestest
